import Mathlib

/-!
Verification of the Metris knowledge-base chat API against its specification.

The development shallowly embeds the three JavaScript source files:
  src/unnamed/part_000  (streaming handler: buildSystemPrompt, buildMessages,
                         the SSE frame decoder loop, and the request handler)
  src/api/chat.js       (buffered handler: buildSystemPrompt, callOpenAI,
                         and the request handler)

JavaScript strings are modelled as lists of characters (Str), JSON-representable
JavaScript values as the inductive JVal, and fallible code as Except.  All
definitions are executable and reduce in the kernel, so concrete runs can be
checked by rfl or decide.
-/

namespace Metris

/-- JavaScript strings, modelled as lists of characters so that every string
operation reduces structurally in the kernel. -/
abbrev Str := List Char

/-- Embed a Lean string literal as a Str. -/
def lit (s : String) : Str := s.data

/-- Characters removed by the JavaScript String.prototype.trim (the ASCII
whitespace characters plus NBSP and the BOM; more exotic Unicode space
characters are outside the model and never produced by the sources). -/
def isJsWs (c : Char) : Bool :=
  c = ' ' || c = '\t' || c = '\n' || c = '\r' ||
  c = '\x0B' || c = '\x0C' || c.toNat = 0xa0 || c.toNat = 0xfeff

/-- JavaScript String.prototype.trim: drop leading and trailing whitespace. -/
def jsTrim (s : Str) : Str :=
  ((s.dropWhile isJsWs).reverse.dropWhile isJsWs).reverse

/-- JSON-representable JavaScript values, plus undefined.  Numbers are kept as
exact decimals m * 10 ^ e (JavaScript float rounding is not modelled; no claim
depends on float arithmetic).  undefined is included because JavaScript
property access yields it for absent fields. -/
inductive JVal where
  | undefined : JVal
  | null : JVal
  | bool (b : Bool) : JVal
  | num (m : Int) (e : Int) : JVal
  | str (s : Str) : JVal
  | arr (xs : List JVal) : JVal
  | obj (fields : List (Str × JVal)) : JVal

/-- JavaScript truthiness of a value.  Arrays and objects are always truthy;
a number is falsy exactly when it is zero (NaN cannot arise from JSON). -/
def truthy : JVal → Bool
  | .undefined => false
  | .null => false
  | .bool b => b
  | .num m _ => m != 0
  | .str s => !s.isEmpty
  | .arr _ => true
  | .obj _ => true

/-- The JavaScript expression a || b. -/
def jOr (a b : JVal) : JVal := if truthy a then a else b

/-- Test whether a value is the given string (JavaScript === against a string
literal). -/
def isStrEq (v : JVal) : Str → Bool
  | s => match v with
    | .str t => t == s
    | _ => false

/-- Field lookup on an object.  JavaScript object literals with duplicate keys
keep the later value, so the lookup prefers the last matching field. -/
def fieldGet : List (Str × JVal) → Str → JVal
  | [], _ => .undefined
  | (k, v) :: rest, key =>
    match fieldGet rest key with
    | .undefined => if k == key then v else .undefined
    | r => r

/-- Decode a string of decimal digits as a canonical array index (no leading
zeros except for the index 0 itself, matching JavaScript array-index keys). -/
def decodeIndex (s : Str) : Option Nat :=
  match s with
  | [] => none
  | ['0'] => some 0
  | c :: _ =>
    if c = '0' then none
    else if s.all (fun d => d.isDigit) then
      some (s.foldl (fun acc d => acc * 10 + (d.toNat - 48)) 0)
    else none

/-- Total property access v[k].  On null or undefined the real operation throws
a TypeError; the call sites below either guard that case with getProp or sit
inside a try/catch whose observable effect equals producing undefined, which is
how those sites use this function. -/
def propGet (v : JVal) (k : Str) : JVal :=
  match v with
  | .obj fs => fieldGet fs k
  | .arr xs =>
    match decodeIndex k with
    | some i => xs.getD i .undefined
    | none => .undefined
  | .str s =>
    match decodeIndex k with
    | some i => match s.get? i with
      | some c => .str [c]
      | none => .undefined
    | none => .undefined
  | _ => .undefined

/-- Property access that throws: v.k is a TypeError when v is null or
undefined, and otherwise behaves as propGet. -/
def getProp (v : JVal) (k : Str) : Except Unit JVal :=
  match v with
  | .undefined => .error ()
  | .null => .error ()
  | _ => .ok (propGet v k)

/-- Decimal digit characters of a natural number. -/
def natToStr (n : Nat) : Str := Nat.toDigits 10 n

/-- Render a model number m * 10 ^ e the way JavaScript renders the numbers
reachable in this code base (plain decimal notation; the exponent-notation
thresholds of full JavaScript are not reproduced, and no claim depends on
them). -/
def numToStr (m : Int) (e : Int) : Str :=
  let sign : Str := if m < 0 then ['-'] else []
  let ds := natToStr m.natAbs
  if 0 ≤ e then
    sign ++ ds ++ List.replicate e.toNat '0'
  else
    let fe := (-e).toNat
    if fe < ds.length then
      sign ++ ds.take (ds.length - fe) ++ ['.'] ++ ds.drop (ds.length - fe)
    else
      sign ++ ['0', '.'] ++ List.replicate (fe - ds.length) '0' ++ ds

mutual
/-- JavaScript String(v) conversion for the values of the model.  Arrays
stringify as their comma-joined elements with null and undefined elements
rendered empty; plain objects render as the fixed object tag. -/
def jsToString : JVal → Str
  | .undefined => lit "undefined"
  | .null => lit "null"
  | .bool true => lit "true"
  | .bool false => lit "false"
  | .num m e => numToStr m e
  | .str s => s
  | .arr xs => jsJoinComma xs
  | .obj _ => lit "[object Object]"

/-- Array.prototype.toString: elements joined with commas, with null and
undefined elements rendered empty. -/
def jsJoinComma : List JVal → Str
  | [] => []
  | [JVal.undefined] => []
  | [JVal.null] => []
  | [x] => jsToString x
  | JVal.undefined :: y :: rest => [','] ++ jsJoinComma (y :: rest)
  | JVal.null :: y :: rest => [','] ++ jsJoinComma (y :: rest)
  | x :: y :: rest => jsToString x ++ [','] ++ jsJoinComma (y :: rest)
end

/-! ## JSON.parse

A model of the JavaScript JSON.parse used by the decoder and the handlers.
The grammar follows RFC 8259 as JavaScript implements it: the four whitespace
characters, null/true/false, strings with the standard escapes (including
surrogate-paired \uXXXX escapes; a lone surrogate is rejected because Lean
characters are Unicode scalar values), exact decimal numbers, arrays and
objects.  Recursion is by an explicit fuel bounded by the input length, so the
function is structural and kernel-reducible. -/

/-- JSON whitespace (strictly space, tab, newline, carriage return). -/
def isJsonWs (c : Char) : Bool :=
  c = ' ' || c = '\t' || c = '\n' || c = '\r'

/-- Skip JSON whitespace. -/
def skipWs (s : Str) : Str := s.dropWhile isJsonWs

/-- Value of a hexadecimal digit. -/
def hexVal (c : Char) : Option Nat :=
  if c.isDigit then some (c.toNat - 48)
  else if 'a' ≤ c ∧ c ≤ 'f' then some (c.toNat - 87)
  else if 'A' ≤ c ∧ c ≤ 'F' then some (c.toNat - 55)
  else none

/-- Value of four hexadecimal digits. -/
def hexQuad (a b c d : Char) : Option Nat := do
  let va ← hexVal a
  let vb ← hexVal b
  let vc ← hexVal c
  let vd ← hexVal d
  some (((va * 16 + vb) * 16 + vc) * 16 + vd)

/-- Body of a JSON string after the opening quote: returns the decoded
characters and the input following the closing quote.  Unescaped control
characters are rejected, as JSON.parse rejects them. -/
def parseStringBody : Str → Option (Str × Str)
  | [] => none
  | '"' :: rest => some ([], rest)
  | '\\' :: rest =>
    match rest with
    | [] => none
    | e :: rest2 =>
      let simple : Option Char :=
        if e = '"' then some '"'
        else if e = '\\' then some '\\'
        else if e = '/' then some '/'
        else if e = 'b' then some '\x08'
        else if e = 'f' then some '\x0C'
        else if e = 'n' then some '\n'
        else if e = 'r' then some '\r'
        else if e = 't' then some '\t'
        else none
      match simple with
      | some c =>
        match parseStringBody rest2 with
        | some (cs, rem) => some (c :: cs, rem)
        | none => none
      | none =>
        if e = 'u' then
          match rest2 with
          | a :: b :: c :: d :: rest3 =>
            match hexQuad a b c d with
            | none => none
            | some n =>
              if n < 0xd800 ∨ 0xe000 ≤ n then
                match parseStringBody rest3 with
                | some (cs, rem) => some (Char.ofNat n :: cs, rem)
                | none => none
              else if n < 0xdc00 then
                match rest3 with
                | '\\' :: 'u' :: a2 :: b2 :: c2 :: d2 :: rest5 =>
                  match hexQuad a2 b2 c2 d2 with
                  | none => none
                  | some lo =>
                    if 0xdc00 ≤ lo ∧ lo < 0xe000 then
                      let code := 0x10000 + (n - 0xd800) * 0x400 + (lo - 0xdc00)
                      match parseStringBody rest5 with
                      | some (cs, rem) => some (Char.ofNat code :: cs, rem)
                      | none => none
                    else none
                | _ => none
              else none
          | _ => none
        else none
  | c :: rest =>
    if c.toNat < 0x20 then none
    else
      match parseStringBody rest with
      | some (cs, rem) => some (c :: cs, rem)
      | none => none

/-- Accumulate leading decimal digits. -/
def takeDigits : Str → Nat → Nat × Nat × Str
  | c :: rest, acc =>
    if c.isDigit then
      let (v, n, rem) := takeDigits rest (acc * 10 + (c.toNat - 48))
      (v, n + 1, rem)
    else (acc, 0, c :: rest)
  | [], acc => (acc, 0, [])

/-- Strip trailing zero digits of the mantissa into the exponent, so that the
stored decimal is canonical (JavaScript prints 1.50 as 1.5). -/
def stripZeros : Nat → Nat → Int → Nat × Int
  | 0, m, e => (m, e)
  | fuel + 1, m, e =>
    if m ≠ 0 ∧ m % 10 = 0 then stripZeros fuel (m / 10) (e + 1) else (m, e)

/-- JSON number after an optional leading minus sign (neg).  Follows the JSON
grammar: int part 0 or nonzero-led digits, optional fraction, optional
exponent. -/
def parseNumTail (neg : Bool) (s : Str) : Option (JVal × Str) := do
  let (ipart, rest) ←
    match s with
    | '0' :: rest => some (0, rest)
    | c :: _ =>
      if c.isDigit ∧ c ≠ '0' then
        let (v, _, rem) := takeDigits s 0
        some (v, rem)
      else none
    | [] => none
  let (mant, fracLen, rest2) ←
    match rest with
    | '.' :: d :: drest =>
      if d.isDigit then
        let (v, n, rem) := takeDigits (d :: drest) 0
        some (ipart * 10 ^ n + v, n, rem)
      else none
    | _ => some (ipart, 0, rest)
  let (expVal, rest3) ←
    match rest2 with
    | c :: erest =>
      if c = 'e' ∨ c = 'E' then
        match erest with
        | '+' :: d :: drest =>
          if d.isDigit then
            let (v, _, rem) := takeDigits (d :: drest) 0
            some ((v : Int), rem)
          else none
        | '-' :: d :: drest =>
          if d.isDigit then
            let (v, _, rem) := takeDigits (d :: drest) 0
            some (-(v : Int), rem)
          else none
        | d :: drest =>
          if d.isDigit then
            let (v, _, rem) := takeDigits (d :: drest) 0
            some ((v : Int), rem)
          else none
        | [] => none
      else some ((0 : Int), rest2)
    | [] => some ((0 : Int), rest2)
  let (m, e) := stripZeros mant mant (expVal - fracLen)
  let mi : Int := if neg then -(m : Int) else (m : Int)
  some (JVal.num mi e, rest3)

mutual
/-- One JSON value, leading whitespace allowed; fuel bounds the nesting. -/
def parseVal : Nat → Str → Option (JVal × Str)
  | 0, _ => none
  | fuel + 1, s =>
    match skipWs s with
    | 'n' :: 'u' :: 'l' :: 'l' :: rest => some (.null, rest)
    | 't' :: 'r' :: 'u' :: 'e' :: rest => some (.bool true, rest)
    | 'f' :: 'a' :: 'l' :: 's' :: 'e' :: rest => some (.bool false, rest)
    | '"' :: rest =>
      match parseStringBody rest with
      | some (cs, rem) => some (.str cs, rem)
      | none => none
    | '-' :: rest => parseNumTail true rest
    | '[' :: rest =>
      match skipWs rest with
      | ']' :: rem => some (.arr [], rem)
      | other =>
        match parseElems fuel other with
        | some (xs, rem) => some (.arr xs, rem)
        | none => none
    | '{' :: rest =>
      match skipWs rest with
      | '}' :: rem => some (.obj [], rem)
      | other =>
        match parseFields fuel other with
        | some (fs, rem) => some (.obj fs, rem)
        | none => none
    | c :: rest =>
      if c.isDigit then parseNumTail false (c :: rest) else none
    | [] => none

/-- Comma-separated array elements up to the closing bracket. -/
def parseElems : Nat → Str → Option (List JVal × Str)
  | 0, _ => none
  | fuel + 1, s =>
    match parseVal fuel s with
    | none => none
    | some (v, rest) =>
      match skipWs rest with
      | ',' :: rest2 =>
        match parseElems fuel rest2 with
        | some (xs, rem) => some (v :: xs, rem)
        | none => none
      | ']' :: rem => some ([v], rem)
      | _ => none

/-- Comma-separated object members up to the closing brace. -/
def parseFields : Nat → Str → Option (List (Str × JVal) × Str)
  | 0, _ => none
  | fuel + 1, s =>
    match skipWs s with
    | '"' :: rest =>
      match parseStringBody rest with
      | none => none
      | some (k, rest2) =>
        match skipWs rest2 with
        | ':' :: rest3 =>
          match parseVal fuel rest3 with
          | none => none
          | some (v, rest4) =>
            match skipWs rest4 with
            | ',' :: rest5 =>
              match parseFields fuel rest5 with
              | some (fs, rem) => some ((k, v) :: fs, rem)
              | none => none
            | '}' :: rem => some ([(k, v)], rem)
            | _ => none
        | _ => none
    | _ => none
end

/-- JSON.parse: parse one value and require only whitespace after it.  The
fuel n + 1 dominates any nesting depth of an input of length n. -/
def jsonParse (s : Str) : Option JVal :=
  match parseVal (s.length + 1) s with
  | some (v, rest) => if (skipWs rest).isEmpty then some v else none
  | none => none

/-! ## Stream relay / frame decoder

Embedding of the read loop of the streaming handler (src/unnamed/part_000,
lines 139-164):

    let buffer = '';
    while (true) \x7b
      const \x7b done, value \x7d = await reader.read();
      if (done) break;
      buffer += decoder.decode(value, \x7b stream: true \x7d);
      const lines = buffer.split('\n');
      buffer = lines.pop() || '';
      for (const line of lines) \x7b
        if (!line.startsWith('data: ')) continue;
        const payload = line.slice(6).trim();
        if (payload === '[DONE]') \x7b res.write('data: [DONE]\n\n'); break; \x7d
        try \x7b
          const parsed = JSON.parse(payload);
          const token = parsed.choices?.[0]?.delta?.content;
          if (token) res.write(...);
        \x7d catch (_) \x7b\x7d
      \x7d
    \x7d

A read is modelled as the text it decodes to; the contents of every claim are
ASCII, so byte offsets and character offsets coincide there.  Note that the
break on the [DONE] sentinel leaves only the inner for loop: the surrounding
while loop keeps consuming subsequent reads. -/

/-- Events the decoder writes downstream: one token event per extracted delta,
and the terminal [DONE] event. -/
inductive Event where
  | token (v : JVal) : Event
  | done : Event

/-- String.prototype.split on the newline character. -/
def splitOnNl : Str → List Str
  | [] => [[]]
  | c :: rest =>
    match splitOnNl rest with
    | [] => [[c]]
    | l :: ls => if c = '\n' then [] :: l :: ls else (c :: l) :: ls

/-- The expression parsed.choices?.[0]?.delta?.content.  The plain access
parsed.choices throws on a null parsed value, but the enclosing try/catch
turns that into a skip, observationally identical to the undefined produced
here; the optional-chained accesses short-circuit null and undefined to
undefined, which propGet models directly. -/
def contentPath (parsed : JVal) : JVal :=
  propGet (propGet (propGet (propGet parsed (lit "choices")) (lit "0"))
    (lit "delta")) (lit "content")

/-- The for loop over the complete lines of one read: keep-alive lines are
skipped, the [DONE] sentinel writes the terminal event and breaks out of this
batch, a payload that fails to parse is skipped silently, and a parsed frame
emits a token event exactly when its delta content is truthy. -/
def processBatch : List Str → List Event
  | [] => []
  | line :: rest =>
    if (lit "data: ").isPrefixOf line then
      let payload := jsTrim (line.drop 6)
      if payload = lit "[DONE]" then [Event.done]
      else
        match jsonParse payload with
        | some parsed =>
          let tok := contentPath parsed
          if truthy tok then Event.token tok :: processBatch rest
          else processBatch rest
        | none => processBatch rest
    else processBatch rest

/-- One iteration of the while loop: append the decoded read to the carry
buffer, split on newlines, keep the final (possibly unterminated) element as
the new buffer, and process the complete lines. -/
def readStep (buffer chunk : Str) : Str × List Event :=
  let lines := splitOnNl (buffer ++ chunk)
  (lines.getLastD [], processBatch lines.dropLast)

/-- The while loop over all reads; at stream end the residual buffer is
discarded. -/
def runDecoder (buffer : Str) : List Str → List Event
  | [] => []
  | chunk :: rest =>
    let step := readStep buffer chunk
    step.2 ++ runDecoder step.1 rest

/-- The decoder applied to a whole upstream stream, starting from the empty
buffer. -/
def decodeStream (chunks : List Str) : List Event :=
  runDecoder [] chunks

/-! ## Prompt assembly

Embeddings of buildSystemPrompt from src/unnamed/part_000 (streaming variant,
which labels blocks with an article index) and from src/api/chat.js (buffered
variant).  Both take the raw context value and may throw: a truthy body
without a slice method, a null or primitive context entry, or a truthy
non-array non-string context value raises a TypeError, modelled as
Except.error. -/

/-- Persona template of the streaming variant, the template literal of src/unnamed/part_000 lines 18-52 up to the interpolated article blocks, with the JavaScript escape sequences evaluated -/
def header000 : Str :=
  lit "You are Metris AI, a friendly and knowledgeable support assistant for Metris Energy, a solar asset management platform used by asset managers, O&M providers, and their customers.\n" ++
  lit "\nYour personality:\n- Warm, approachable, and genuinely helpful. Like a knowledgeable colleague, not a robot\n- Use natural, conversational language. Say \"you\" and \"your\", not \"the user\"\n" ++
  lit "- Keep things clear and concise, but don\x27t be cold or overly formal\n- It\x27s fine to say \"Great question!\" or \"Happy to help with that\" when it feels natural, but don\x27t overdo it\n" ++
  lit "- If something is a common question, reassure them it comes up a lot\n- Use short paragraphs. Break up longer answers so they\x27re easy to scan\n" ++
  lit "\nWriting style:\n- Never use em dashes. Use commas, full stops, or separate sentences instead\n- Never use the word \"actually\"\n" ++
  lit "- Avoid dramatic or exaggerated language. No \"incredibly\", \"absolutely\", \"game-changing\", \"revolutionary\", etc. Just be straightforward and genuine\n" ++
  lit "- NEVER use LaTeX, MathJax, or any math notation like [ ], \text\x7b\x7d, \x0Crac\x7b\x7d, etc. Write all formulas in plain text, e.g. \"CO2 Savings = Generation (kWh) x 0.207074 (kg CO2/kWh)\". The chat has no math renderer so LaTeX will show as raw ugly text\n" ++
  lit "- For subscripts like CO2, just write CO2 in plain text\n- When writing numbered lists, use standard markdown: \"1. First item\n" ++
  lit "2. Second item\n3. Third item\" with no blank lines between items\n\nSource citations:\n- At the end of your answer, on a new line, add a \"Sources:\" section listing the article titles you drew from\n" ++
  lit "- Format each source as: Sources: Article Title 1, Article Title 2\n- Only cite articles you used. If you didn\x27t use any, skip the Sources line\n" ++
  lit "\nHonesty and uncertainty:\n- Answer ONLY from the knowledge base articles provided below. Do not invent or assume information\n" ++
  lit "- If you are not 100% sure about something, say so clearly. Use phrases like \"I\x27m not certain about this\" or \"I don\x27t have the detail on that\" rather than guessing\n" ++
  lit "- NEVER make up an answer. It is far better to say you don\x27t know than to give wrong information\n- If the answer isn\x27t covered in the articles, or you\x27re only partially confident, tell them honestly and direct them to email support@metrisenergy.com for a definitive answer\n" ++
  lit "- When you\x27re uncertain, always end with something like: \"For a definitive answer, I\x27d recommend emailing support@metrisenergy.com directly. The team typically responds within 2 hours.\"\n" ++
  lit "- Never fabricate features, numbers, formulas, or processes. If a specific number or detail isn\x27t in the articles, don\x27t guess it\n" ++
  lit "- You have conversation history, so handle follow-up questions naturally\n\nKnowledge base articles:\n\n"

/-- Persona template of the buffered variant, the template literal of src/api/chat.js line 17 up to the interpolated article blocks -/
def headerChat : Str :=
  lit "You are Metris AI, the support assistant for Metris Energy\x27s solar asset management platform. Answer the user\x27s question using ONLY the following knowledge base articles. If the answer is not in these articles, say so and suggest they browse the knowledge base or contact support@metrisenergy.com. Keep answers concise and helpful. Do not make up information.\n" ++
  lit "\n"

/-- The visible separator joining rendered article blocks. -/
def blockSep : Str := lit "\n\n---\n\n"

/-- The placeholder rendered when no article blocks were produced. -/
def noArticles : Str := lit "No articles were provided."

/-- Array.prototype.slice with arguments (0, n): works on arrays and strings,
and is a TypeError on any other receiver. -/
def jsSliceTo (v : JVal) (n : Nat) : Except Unit JVal :=
  match v with
  | .str s => .ok (.str (s.take n))
  | .arr xs => .ok (.arr (xs.take n))
  | _ => .error ()

/-- Elements of the sliced receiver for the following .map call: only arrays
have a map method; a sliced string reaches the call but throws there. -/
def asMapReceiver : JVal → Except Unit (List JVal)
  | .arr xs => .ok xs
  | _ => .error ()

/-- One rendered block of the streaming variant:
`## [Article $\x7bi + 1\x7d] $\x7bitem.title || 'Article'\x7d\n$\x7bbody\x7d` where body is
(item.body || '').slice(0, 2800).  Accessing item.body throws when the item is
null or undefined, and the slice throws when the defaulted body is a truthy
value that is neither a string nor an array. -/
def renderBlock000 (i : Nat) (item : JVal) : Except Unit Str :=
  match getProp item (lit "body") with
  | .error e => .error e
  | .ok bodyField =>
    match jsSliceTo (jOr bodyField (JVal.str [])) 2800 with
    | .error e => .error e
    | .ok body =>
      match getProp item (lit "title") with
      | .error e => .error e
      | .ok titleField =>
        Except.ok (lit "## [Article " ++ natToStr (i + 1) ++ lit "] " ++
          jsToString (jOr titleField (JVal.str (lit "Article"))) ++ ['\n'] ++
          jsToString body)

/-- One rendered block of the buffered variant:
`## $\x7bitem.title || 'Article'\x7d\n$\x7bbody\x7d`. -/
def renderBlockChat (item : JVal) : Except Unit Str :=
  match getProp item (lit "body") with
  | .error e => .error e
  | .ok bodyField =>
    match jsSliceTo (jOr bodyField (JVal.str [])) 2800 with
    | .error e => .error e
    | .ok body =>
      match getProp item (lit "title") with
      | .error e => .error e
      | .ok titleField =>
        Except.ok (lit "## " ++ jsToString (jOr titleField (JVal.str (lit "Article"))) ++
          ['\n'] ++ jsToString body)

/-- Array.prototype.map with an index-aware callback, stopping at the first
thrown error, starting at index i. -/
def mapBlocks (f : Nat → JVal → Except Unit Str) : Nat → List JVal → Except Unit (List Str)
  | _, [] => .ok []
  | i, x :: xs =>
    match f i x with
    | .error e => .error e
    | .ok b =>
      match mapBlocks f (i + 1) xs with
      | .error e => .error e
      | .ok rest => .ok (b :: rest)

/-- The article blocks of the streaming variant: (context || []) sliced to the
first five entries and rendered. -/
def blocks000 (context : JVal) : Except Unit (List Str) :=
  match jsSliceTo (jOr context (JVal.arr [])) 5 with
  | .error e => .error e
  | .ok sliced =>
    match asMapReceiver sliced with
    | .error e => .error e
    | .ok items => mapBlocks renderBlock000 0 items

/-- The article blocks of the buffered variant. -/
def blocksChat (context : JVal) : Except Unit (List Str) :=
  match jsSliceTo (jOr context (JVal.arr [])) 5 with
  | .error e => .error e
  | .ok sliced =>
    match asMapReceiver sliced with
    | .error e => .error e
    | .ok items => mapBlocks (fun _ item => renderBlockChat item) 0 items

/-- buildSystemPrompt of src/unnamed/part_000 (lines 10-53). -/
def buildSystemPrompt000 (context : JVal) : Except Unit Str :=
  match blocks000 context with
  | .error e => .error e
  | .ok bs =>
    let refs := List.intercalate blockSep bs
    Except.ok (header000 ++ (if refs.isEmpty then noArticles else refs))

/-- buildSystemPrompt of src/api/chat.js (lines 9-18). -/
def buildSystemPromptChat (context : JVal) : Except Unit Str :=
  match blocksChat context with
  | .error e => .error e
  | .ok bs =>
    let refs := List.intercalate blockSep bs
    Except.ok (headerChat ++ (if refs.isEmpty then noArticles else refs))

/-! ## Message assembly

Embedding of buildMessages from src/unnamed/part_000 (lines 55-65).  The
handler passes history only after an Array.isArray check, so the embedded
function takes the entries as a list. -/

/-- One chat message. -/
structure Message where
  role : Str
  content : Str
  deriving DecidableEq

/-- Array.prototype.slice with the single argument -10: the last ten
elements. -/
def lastTen (l : List JVal) : List JVal := l.drop (l.length - 10)

/-- The string stored in a str value (the roles pushed by the loop are always
strings, so the default is unreachable there). -/
def strValD : JVal → Str
  | .str s => s
  | _ => []

/-- The for loop of buildMessages: keep entries whose role is exactly user or
assistant and push them with String(msg.content || '').slice(0, 2000).
Accessing msg.role throws on a null or undefined entry. -/
def pushTurns : List JVal → Except Unit (List Message)
  | [] => .ok []
  | m :: rest =>
    match getProp m (lit "role") with
    | .error e => .error e
    | .ok role =>
      if isStrEq role (lit "user") || isStrEq role (lit "assistant") then
        match getProp m (lit "content") with
        | .error e => .error e
        | .ok contentField =>
          match pushTurns rest with
          | .error e => .error e
          | .ok ts =>
            .ok (⟨strValD role,
              (jsToString (jOr contentField (JVal.str []))).take 2000⟩ :: ts)
      else pushTurns rest

/-- buildMessages of src/unnamed/part_000: a system message carrying the
assembled prompt, the kept window of history turns, then the question as the
final user message. -/
def buildMessages (systemPrompt question : Str) (history : List JVal) :
    Except Unit (List Message) :=
  match pushTurns (lastTen history) with
  | .error e => .error e
  | .ok ts =>
    Except.ok (⟨lit "system", systemPrompt⟩ :: ts ++ [⟨lit "user", question⟩])

/-- The specification-side view of one loop iteration: the message kept for an
entry, if any.  It agrees with pushTurns on every entry on which the loop does
not throw. -/
def keepFn (m : JVal) : Option Message :=
  let role := propGet m (lit "role")
  if isStrEq role (lit "user") || isStrEq role (lit "assistant") then
    some ⟨strValD role,
      (jsToString (jOr (propGet m (lit "content")) (JVal.str []))).take 2000⟩
  else none

/-! ## Request handlers

Embeddings of the two exported handlers.  Transport concerns (CORS headers,
the shape of req and res) are reduced to the data the handlers branch on: the
method string, the OPENAI_API_KEY environment value, the request body, and an
oracle for the single outbound provider call.  The third component of a result
counts outbound network calls.  A handler result of Except.error models an
exception escaping the handler (an unhandled rejection). -/

/-- The request body as delivered by the platform: either a raw string (parsed
with JSON.parse) or an already-materialized value (req.body || \x7b\x7d applies). -/
inductive ReqBody where
  | strB (s : Str) : ReqBody
  | val (v : JVal) : ReqBody

/-- Outcome oracle for the buffered provider call of src/api/chat.js: the
fetch throws, returns a non-ok status with an error body, or returns ok with
a parsed JSON reply (a reply body that fails to parse behaves like netErr:
both end in the same catch). -/
inductive ProvB where
  | netErr : ProvB
  | httpErr (status : Nat) (body : Str) : ProvB
  | okJson (v : JVal) : ProvB

/-- Outcome oracle for the streaming provider call of src/unnamed/part_000:
the fetch throws, returns a non-ok status, or returns ok with a readable
body delivered as a sequence of decoded reads. -/
inductive ProvS where
  | netErr : ProvS
  | httpErr (status : Nat) (body : Str) : ProvS
  | okStream (chunks : List Str) : ProvS

/-- Response bodies the handlers can produce. -/
inductive RBody where
  | empty : RBody
  | errorMsg (s : Str) : RBody
  | reply (s : Str) : RBody
  | sse (events : List Event) : RBody

/-- A finished handler run: HTTP status, response body, and the number of
outbound provider calls made. -/
structure HOut where
  status : Nat
  body : RBody
  calls : Nat

/-- The fixed reply sent when no API key is configured. -/
def notConfiguredReply : Str :=
  lit "Metris AI isn\x27t configured for this environment. Please browse the articles above or email support@metrisenergy.com."

/-- The fixed apology reply for provider failures. -/
def apologyReply : Str :=
  lit "Sorry, I had trouble answering that. Please try again or contact support@metrisenergy.com."

/-- Truthiness of the OPENAI_API_KEY environment value (a missing variable is
undefined, an empty string is falsy). -/
def keyTruthy : Option Str → Bool
  | none => false
  | some s => !s.isEmpty

/-- body = typeof req.body === 'string' ? JSON.parse(req.body) : req.body || \x7b\x7d.
A parse failure is the SyntaxError caught by the surrounding try. -/
def bodyOf : ReqBody → Except Unit JVal
  | .strB s =>
    match jsonParse s with
    | some v => .ok v
    | none => .error ()
  | .val v => .ok (jOr v (JVal.obj []))

/-- question = typeof body.question === 'string' ? body.question.trim() : ''.
The property access throws when the parsed body is null. -/
def questionOf (body : JVal) : Except Unit Str :=
  match getProp body (lit "question") with
  | .error e => .error e
  | .ok (.str s) => Except.ok (jsTrim s)
  | .ok _ => Except.ok []

/-- context = Array.isArray(body.context) ? body.context : []. -/
def contextOf (body : JVal) : JVal :=
  match propGet body (lit "context") with
  | .arr xs => .arr xs
  | _ => .arr []

/-- history = Array.isArray(body.history) ? body.history : []. -/
def historyOf (body : JVal) : List JVal :=
  match propGet body (lit "history") with
  | .arr xs => xs
  | _ => []

/-- The handler of src/api/chat.js (buffered).  callOpenAI runs inside the
try, so a TypeError thrown by buildSystemPrompt is caught and produces the
500 apology without any outbound call. -/
def handlerChat (method : Str) (apiKey : Option Str) (rb : ReqBody)
    (prov : ProvB) : Except Unit HOut :=
  if method = lit "OPTIONS" then .ok ⟨204, .empty, 0⟩
  else if ¬ method = lit "POST" then .ok ⟨405, .errorMsg (lit "Method not allowed"), 0⟩
  else if ¬ keyTruthy apiKey then .ok ⟨200, .reply notConfiguredReply, 0⟩
  else
    match bodyOf rb with
    | .error _ => .ok ⟨400, .errorMsg (lit "Invalid JSON"), 0⟩
    | .ok body =>
      match questionOf body with
      | .error e => .error e
      | .ok question =>
      let context := contextOf body
      if question.isEmpty then .ok ⟨400, .errorMsg (lit "Missing question"), 0⟩
      else
        match buildSystemPromptChat context with
        | .error _ => .ok ⟨500, .reply apologyReply, 0⟩
        | .ok _prompt =>
          match prov with
          | .netErr => .ok ⟨500, .reply apologyReply, 1⟩
          | .httpErr _ _ => .ok ⟨500, .reply apologyReply, 1⟩
          | .okJson v =>
            match propGet (propGet (propGet (propGet v (lit "choices")) (lit "0"))
                (lit "message")) (lit "content") with
            | .str s => .ok ⟨200, .reply (jsTrim s), 1⟩
            | _ => .ok ⟨500, .reply apologyReply, 1⟩

/-- The handler of src/unnamed/part_000 (streaming).  buildSystemPrompt and
buildMessages run outside the try, so a TypeError there escapes the handler;
provider failures inside the try produce the 200 apology; on an ok response
the SSE body carries exactly the events of the decoder loop. -/
def handlerStream (method : Str) (apiKey : Option Str) (rb : ReqBody)
    (prov : ProvS) : Except Unit HOut :=
  if method = lit "OPTIONS" then .ok ⟨204, .empty, 0⟩
  else if ¬ method = lit "POST" then .ok ⟨405, .errorMsg (lit "Method not allowed"), 0⟩
  else if ¬ keyTruthy apiKey then .ok ⟨200, .reply notConfiguredReply, 0⟩
  else
    match bodyOf rb with
    | .error _ => .ok ⟨400, .errorMsg (lit "Invalid JSON"), 0⟩
    | .ok body =>
      match questionOf body with
      | .error e => .error e
      | .ok question =>
      let context := contextOf body
      let history := historyOf body
      if question.isEmpty then .ok ⟨400, .errorMsg (lit "Missing question"), 0⟩
      else
        match buildSystemPrompt000 context with
        | .error e => .error e
        | .ok systemPrompt =>
          match buildMessages systemPrompt question history with
          | .error e => .error e
          | .ok _messages =>
            match prov with
            | .netErr => .ok ⟨200, .reply apologyReply, 1⟩
            | .httpErr _ _ => .ok ⟨200, .reply apologyReply, 1⟩
            | .okStream chunks => .ok ⟨200, .sse (decodeStream chunks), 1⟩

/-! ## Specification-side definitions used by the claim theorems -/

/-- A knowledge item as the inbound interface types it: a title and a body,
both strings (an absent field behaves like the empty string). -/
structure KnowledgeItem where
  title : Str
  body : Str

/-- The JSON object a knowledge item arrives as. -/
def encodeItem (it : KnowledgeItem) : JVal :=
  .obj [(lit "title", .str it.title), (lit "body", .str it.body)]

/-- The block the streaming variant renders for the item at index i: header
with the one-based article number, title defaulting to Article, and the body
hard-cut to its first 2800 characters with nothing appended. -/
def blockText000 (i : Nat) (it : KnowledgeItem) : Str :=
  lit "## [Article " ++ natToStr (i + 1) ++ lit "] " ++
    (if it.title.isEmpty then lit "Article" else it.title) ++ ['\n'] ++
    it.body.take 2800

/-- The block the buffered variant renders for an item. -/
def blockTextChat (it : KnowledgeItem) : Str :=
  lit "## " ++ (if it.title.isEmpty then lit "Article" else it.title) ++
    ['\n'] ++ it.body.take 2800

/-- Blocks of the streaming variant for a list of items, numbering from i. -/
def blockTexts000 : Nat → List KnowledgeItem → List Str
  | _, [] => []
  | i, it :: rest => blockText000 i it :: blockTexts000 (i + 1) rest

/-- Assemble a full prompt from a header and article blocks, as both variants
do: join with the separator, or the placeholder when no blocks exist. -/
def promptFrom (header : Str) (blocks : List Str) : Str :=
  let refs := List.intercalate blockSep blocks
  header ++ (if refs.isEmpty then noArticles else refs)

/-- A context-entry field value on which the assembler cannot throw: a string,
or any falsy value (normalized to the empty string by the || guard). -/
def fieldBenign : JVal → Bool
  | .str _ => true
  | v => !truthy v

/-- A context entry on which the assembler cannot throw: an object whose
title and body fields are strings or falsy. -/
def itemBenign : JVal → Bool
  | .obj fs => fieldBenign (fieldGet fs (lit "title")) &&
      fieldBenign (fieldGet fs (lit "body"))
  | _ => false

/-- A context value on which the assembler cannot throw: any falsy value
(normalized to the empty array), or an array of benign entries. -/
def ctxBenign (v : JVal) : Bool :=
  if truthy v then
    match v with
    | .arr xs => xs.all itemBenign
    | _ => false
  else true

/-- The upstream content of claim C1: the two token frames carrying Hel and
lo, followed by the [DONE] sentinel line.  The text is pure ASCII, so every
byte offset is a character offset. -/
def c1content : Str :=
  lit "data: \x7b\"choices\":[\x7b\"delta\":\x7b\"content\":\"Hel\"\x7d\x7d]\x7d\n\ndata: \x7b\"choices\":[\x7b\"delta\":\x7b\"content\":\"lo\"\x7d\x7d]\x7d\n\ndata: [DONE]\n\n"

/-- Example history used to witness the message-assembly theorems: one kept
user turn and one dropped tool turn. -/
def exHistory : List JVal :=
  [JVal.obj [(lit "role", JVal.str (lit "user")), (lit "content", JVal.str (lit "hi"))],
   JVal.obj [(lit "role", JVal.str (lit "tool")), (lit "content", JVal.str (lit "drop"))]]

/-- The message list buildMessages produces for exHistory. -/
def exMessages : List Message :=
  [⟨lit "system", lit "S"⟩, ⟨lit "user", lit "hi"⟩, ⟨lit "user", lit "Q"⟩]

/-- Example history used to witness the ordering theorem: an assistant turn
followed by a user turn, plus a dropped malformed entry. -/
def exHistory2 : List JVal :=
  [JVal.obj [(lit "role", JVal.str (lit "assistant")), (lit "content", JVal.str (lit "a1"))],
   JVal.obj [(lit "role", JVal.num 3 0)],
   JVal.obj [(lit "role", JVal.str (lit "user")), (lit "content", JVal.str (lit "u1"))]]

/-- The message list buildMessages produces for exHistory2. -/
def exMessages2 : List Message :=
  [⟨lit "system", lit "S"⟩, ⟨lit "assistant", lit "a1"⟩, ⟨lit "user", lit "u1"⟩,
   ⟨lit "user", lit "Q"⟩]

/-- A complete data line whose payload is not valid JSON. -/
def exBadLine : Str := lit "data: \x7b oops"

/-- A complete data line carrying a valid token frame. -/
def exGoodLine : Str :=
  lit "data: \x7b\"choices\":[\x7b\"delta\":\x7b\"content\":\"ok\"\x7d\x7d]\x7d"

/-- A benign context: one entry with a string title and a null body. -/
def exBenignCtx : JVal :=
  JVal.arr [JVal.obj [(lit "title", JVal.str (lit "T")), (lit "body", JVal.null)]]

/-! ## Helper lemmas -/

/-- A successful property access returns exactly the total model access. -/
theorem getProp_eq_propGet (m : JVal) (k : Str) (r : JVal)
    (h : getProp m k = Except.ok r) : r = propGet m k := by
  cases m <;> simp_all [getProp]

/-- The successful runs of the buildMessages loop compute the filterMap of the
specification-side per-entry function. -/
theorem pushTurns_filterMap (l : List JVal) (ts : List Message)
    (h : pushTurns l = Except.ok ts) : ts = l.filterMap keepFn := by
  induction l generalizing ts with
  | nil =>
    simp only [pushTurns] at h
    cases h
    rfl
  | cons m rest ih =>
    simp only [pushTurns] at h
    cases hr : getProp m (lit "role") with
    | error e => rw [hr] at h; cases h
    | ok role =>
      rw [hr] at h
      dsimp only at h
      have hrole := getProp_eq_propGet m _ _ hr
      by_cases hu : (isStrEq role (lit "user") || isStrEq role (lit "assistant")) = true
      · rw [if_pos hu] at h
        cases hc : getProp m (lit "content") with
        | error e => rw [hc] at h; cases h
        | ok contentField =>
          rw [hc] at h
          dsimp only at h
          have hcf := getProp_eq_propGet m _ _ hc
          cases ht : pushTurns rest with
          | error e => rw [ht] at h; cases h
          | ok ts2 =>
            rw [ht] at h
            dsimp only at h
            cases h
            rw [List.filterMap_cons]
            rw [show keepFn m = some ⟨strValD role,
              (jsToString (jOr contentField (JVal.str []))).take 2000⟩ from by
                simp [keepFn, ← hrole, ← hcf, hu]]
            rw [ih ts2 ht]
      · rw [if_neg hu] at h
        rw [List.filterMap_cons]
        rw [show keepFn m = none from by
          simp only [keepFn, ← hrole]
          simpa using hu]
        exact ih ts h

/-- Every message the loop keeps has role user or assistant and content of at
most 2000 characters. -/
theorem keepFn_shape (m : JVal) (msg : Message) (h : keepFn m = some msg) :
    (msg.role = lit "user" ∨ msg.role = lit "assistant") ∧
    msg.content.length ≤ 2000 := by
  simp only [keepFn] at h
  by_cases hu : (isStrEq (propGet m (lit "role")) (lit "user") ||
      isStrEq (propGet m (lit "role")) (lit "assistant")) = true
  · rw [if_pos hu] at h
    cases h
    constructor
    · rcases Bool.or_eq_true_iff.mp hu with h1 | h1
      · left
        cases hv : propGet m (lit "role") <;> simp_all [isStrEq, strValD]
      · right
        cases hv : propGet m (lit "role") <;> simp_all [isStrEq, strValD]
    · simp [List.length_take_le 2000]
  · rw [if_neg hu] at h
    cases h

/-- The retained window holds at most ten entries. -/
theorem lastTen_length_le (l : List JVal) : (lastTen l).length ≤ 10 := by
  simp only [lastTen, List.length_drop]
  omega

/-- Retaining the window twice retains it once. -/
theorem lastTen_idem (l : List JVal) : lastTen (lastTen l) = lastTen l := by
  have h := lastTen_length_le l
  simp only [lastTen] at *
  rw [show (l.drop (l.length - 10)).length - 10 = 0 by omega]
  rfl

/-- A successful buildMessages run produces exactly the system message, the
kept window turns, and the final user question. -/
theorem buildMessages_shape (sp q : Str) (h : List JVal) (ms : List Message)
    (hm : buildMessages sp q h = Except.ok ms) :
    ms = ⟨lit "system", sp⟩ :: (lastTen h).filterMap keepFn ++
      [⟨lit "user", q⟩] := by
  simp only [buildMessages] at hm
  cases ht : pushTurns (lastTen h) with
  | error e => rw [ht] at hm; cases hm
  | ok ts =>
    rw [ht] at hm
    dsimp only at hm
    cases hm
    rw [pushTurns_filterMap _ _ ht]

/-- Rendering a typed item in the streaming variant. -/
theorem renderBlock000_typed (i : Nat) (it : KnowledgeItem) :
    renderBlock000 i (encodeItem it) = Except.ok (blockText000 i it) := by
  rcases it with ⟨t, b⟩
  cases t <;> cases b <;> rfl

/-- Rendering a typed item in the buffered variant. -/
theorem renderBlockChat_typed (it : KnowledgeItem) :
    renderBlockChat (encodeItem it) = Except.ok (blockTextChat it) := by
  rcases it with ⟨t, b⟩
  cases t <;> cases b <;> rfl

/-- Mapping the streaming renderer over typed items from any start index. -/
theorem mapBlocks000_typed (l : List KnowledgeItem) (i : Nat) :
    mapBlocks renderBlock000 i (l.map encodeItem) =
      Except.ok (blockTexts000 i l) := by
  induction l generalizing i with
  | nil => rfl
  | cons it rest ih =>
    simp only [List.map_cons, mapBlocks, renderBlock000_typed, ih, blockTexts000]

/-- Mapping the buffered renderer over typed items. -/
theorem mapBlocksChat_typed (l : List KnowledgeItem) (i : Nat) :
    mapBlocks (fun _ item => renderBlockChat item) i (l.map encodeItem) =
      Except.ok (l.map blockTextChat) := by
  induction l generalizing i with
  | nil => rfl
  | cons it rest ih =>
    simp only [List.map_cons, mapBlocks, renderBlockChat_typed, ih]

/-- The streaming blocks of a typed context render its first five items. -/
theorem blocks000_typed (ctx : List KnowledgeItem) :
    blocks000 (JVal.arr (ctx.map encodeItem)) =
      Except.ok (blockTexts000 0 (ctx.take 5)) := by
  show mapBlocks renderBlock000 0 ((ctx.map encodeItem).take 5) = _
  rw [← List.map_take]
  exact mapBlocks000_typed _ _

/-- The buffered blocks of a typed context render its first five items. -/
theorem blocksChat_typed (ctx : List KnowledgeItem) :
    blocksChat (JVal.arr (ctx.map encodeItem)) =
      Except.ok ((ctx.take 5).map blockTextChat) := by
  show mapBlocks (fun _ item => renderBlockChat item) 0
    ((ctx.map encodeItem).take 5) = _
  rw [← List.map_take]
  exact mapBlocksChat_typed _ _

/-- A benign body field survives the default-and-slice step. -/
theorem slice_ok_of_fieldBenign (v : JVal) (h : fieldBenign v = true) :
    ∃ s : Str, jsSliceTo (jOr v (JVal.str [])) 2800 = Except.ok (JVal.str s) := by
  cases v with
  | undefined => exact ⟨[], rfl⟩
  | null => exact ⟨[], rfl⟩
  | bool b =>
    cases b
    · exact ⟨[], rfl⟩
    · exact Bool.noConfusion h
  | num m e =>
    have hm : m = 0 := by
      by_contra hm
      have ht : truthy (JVal.num m e) = true := by simp [truthy, hm]
      simp [fieldBenign, ht] at h
    subst hm
    exact ⟨[], rfl⟩
  | str s =>
    by_cases hs : s.isEmpty
    · refine ⟨[], ?_⟩
      simp [jOr, truthy, hs, jsSliceTo]
    · refine ⟨s.take 2800, ?_⟩
      simp [jOr, truthy, hs, jsSliceTo]
  | arr xs => exact Bool.noConfusion h
  | obj fs => exact Bool.noConfusion h

/-- The streaming renderer cannot throw on a benign item. -/
theorem renderBlock000_benign (i : Nat) (item : JVal)
    (hb : itemBenign item = true) :
    ∃ s, renderBlock000 i item = Except.ok s := by
  cases item with
  | obj fs =>
    rw [itemBenign, Bool.and_eq_true] at hb
    obtain ⟨ht, hbo⟩ := hb
    obtain ⟨bs, hbs⟩ := slice_ok_of_fieldBenign _ hbo
    simp only [renderBlock000, getProp, propGet, hbs]
    exact ⟨_, rfl⟩
  | undefined => exact Bool.noConfusion hb
  | null => exact Bool.noConfusion hb
  | bool b => exact Bool.noConfusion hb
  | num m e => exact Bool.noConfusion hb
  | str s => exact Bool.noConfusion hb
  | arr xs => exact Bool.noConfusion hb

/-- The buffered renderer cannot throw on a benign item. -/
theorem renderBlockChat_benign (item : JVal) (hb : itemBenign item = true) :
    ∃ s, renderBlockChat item = Except.ok s := by
  cases item with
  | obj fs =>
    rw [itemBenign, Bool.and_eq_true] at hb
    obtain ⟨ht, hbo⟩ := hb
    obtain ⟨bs, hbs⟩ := slice_ok_of_fieldBenign _ hbo
    simp only [renderBlockChat, getProp, propGet, hbs]
    exact ⟨_, rfl⟩
  | undefined => exact Bool.noConfusion hb
  | null => exact Bool.noConfusion hb
  | bool b => exact Bool.noConfusion hb
  | num m e => exact Bool.noConfusion hb
  | str s => exact Bool.noConfusion hb
  | arr xs => exact Bool.noConfusion hb

/-- Mapping the streaming renderer over benign items cannot throw. -/
theorem mapBlocks000_benign (xs : List JVal) (i : Nat)
    (hb : xs.all itemBenign = true) :
    ∃ bs, mapBlocks renderBlock000 i xs = Except.ok bs := by
  induction xs generalizing i with
  | nil => exact ⟨[], rfl⟩
  | cons x rest ih =>
    rw [List.all_cons, Bool.and_eq_true] at hb
    obtain ⟨b1, h1⟩ := renderBlock000_benign i x hb.1
    obtain ⟨bs, h2⟩ := ih (i + 1) hb.2
    refine ⟨b1 :: bs, ?_⟩
    simp only [mapBlocks, h1, h2]

/-- Mapping the buffered renderer over benign items cannot throw. -/
theorem mapBlocksChat_benign (xs : List JVal) (i : Nat)
    (hb : xs.all itemBenign = true) :
    ∃ bs, mapBlocks (fun _ item => renderBlockChat item) i xs = Except.ok bs := by
  induction xs generalizing i with
  | nil => exact ⟨[], rfl⟩
  | cons x rest ih =>
    rw [List.all_cons, Bool.and_eq_true] at hb
    obtain ⟨b1, h1⟩ := renderBlockChat_benign x hb.1
    obtain ⟨bs, h2⟩ := ih (i + 1) hb.2
    refine ⟨b1 :: bs, ?_⟩
    simp only [mapBlocks, h1, h2]

/-- The streaming assembler cannot throw on a benign context. -/
theorem buildSystemPrompt000_benign (ctx : JVal) (hb : ctxBenign ctx = true) :
    ∃ p, buildSystemPrompt000 ctx = Except.ok p := by
  by_cases ht : truthy ctx = true
  · cases ctx with
    | arr xs =>
      have hall : (xs.take 5).all itemBenign = true := by
        rw [ctxBenign, if_pos ht] at hb
        rw [List.all_eq_true] at hb ⊢
        exact fun x hx => hb x (List.take_subset 5 xs hx)
      obtain ⟨bs, hbs⟩ := mapBlocks000_benign (xs.take 5) 0 hall
      refine ⟨header000 ++ (if (List.intercalate blockSep bs).isEmpty then
        noArticles else List.intercalate blockSep bs), ?_⟩
      simp only [buildSystemPrompt000, blocks000, jOr, ht, if_true, jsSliceTo,
        asMapReceiver, hbs]
    | undefined => exact Bool.noConfusion ht
    | null => exact Bool.noConfusion ht
    | bool b => simp [ctxBenign, ht] at hb
    | num m e => simp [ctxBenign, ht] at hb
    | str s => simp [ctxBenign, ht] at hb
    | obj fs => simp [ctxBenign, ht] at hb
  · refine ⟨header000 ++ noArticles, ?_⟩
    have hor : jOr ctx (JVal.arr []) = JVal.arr [] := by simp [jOr, ht]
    simp only [buildSystemPrompt000, blocks000, hor, jsSliceTo, asMapReceiver]
    rfl

/-- The buffered assembler cannot throw on a benign context. -/
theorem buildSystemPromptChat_benign (ctx : JVal) (hb : ctxBenign ctx = true) :
    ∃ p, buildSystemPromptChat ctx = Except.ok p := by
  by_cases ht : truthy ctx = true
  · cases ctx with
    | arr xs =>
      have hall : (xs.take 5).all itemBenign = true := by
        rw [ctxBenign, if_pos ht] at hb
        rw [List.all_eq_true] at hb ⊢
        exact fun x hx => hb x (List.take_subset 5 xs hx)
      obtain ⟨bs, hbs⟩ := mapBlocksChat_benign (xs.take 5) 0 hall
      refine ⟨headerChat ++ (if (List.intercalate blockSep bs).isEmpty then
        noArticles else List.intercalate blockSep bs), ?_⟩
      simp only [buildSystemPromptChat, blocksChat, jOr, ht, if_true, jsSliceTo,
        asMapReceiver, hbs]
    | undefined => exact Bool.noConfusion ht
    | null => exact Bool.noConfusion ht
    | bool b => simp [ctxBenign, ht] at hb
    | num m e => simp [ctxBenign, ht] at hb
    | str s => simp [ctxBenign, ht] at hb
    | obj fs => simp [ctxBenign, ht] at hb
  · refine ⟨headerChat ++ noArticles, ?_⟩
    have hor : jOr ctx (JVal.arr []) = JVal.arr [] := by simp [jOr, ht]
    simp only [buildSystemPromptChat, blocksChat, hor, jsSliceTo, asMapReceiver]
    rfl

/-- A POST to the buffered handler with an unconfigured key yields the fixed
reply and no outbound call, regardless of body and provider. -/
theorem handlerChat_unconfigured (k : Option Str) (hk : keyTruthy k = false)
    (rb : ReqBody) (pb : ProvB) :
    handlerChat (lit "POST") k rb pb =
      Except.ok ⟨200, .reply notConfiguredReply, 0⟩ := by
  have hno : ¬ (lit "POST" = lit "OPTIONS") := by decide
  have hpost : ¬ ¬ (lit "POST" = lit "POST") := by decide
  have hkc : ¬ keyTruthy k = true := by simp [hk]
  unfold handlerChat
  rw [if_neg hno, if_neg hpost, if_pos hkc]

/-- A POST to the streaming handler with an unconfigured key yields the fixed
reply and no outbound call, regardless of body and provider. -/
theorem handlerStream_unconfigured (k : Option Str) (hk : keyTruthy k = false)
    (rb : ReqBody) (ps : ProvS) :
    handlerStream (lit "POST") k rb ps =
      Except.ok ⟨200, .reply notConfiguredReply, 0⟩ := by
  have hno : ¬ (lit "POST" = lit "OPTIONS") := by decide
  have hpost : ¬ ¬ (lit "POST" = lit "POST") := by decide
  have hkc : ¬ keyTruthy k = true := by simp [hk]
  unfold handlerStream
  rw [if_neg hno, if_neg hpost, if_pos hkc]

/-! ## Claim theorems -/

/-- C1: for every split of the upstream content carrying the token frames Hel
and lo followed by the [DONE] sentinel line into two reads at an arbitrary
offset (the content is ASCII, so byte offsets are character offsets, and
offsets at or past the end give the one-read degenerate splits), the frame
decoder emits exactly the token events Hel, then lo, then the terminal event,
in that order, independent of the split point. -/
theorem c1_split_point_independence (k : Nat) :
    decodeStream [c1content.take k, c1content.drop k] =
      [Event.token (JVal.str (lit "Hel")), Event.token (JVal.str (lit "lo")),
        Event.done] := by
  by_cases hk : k < 112
  · interval_cases k <;> rfl
  · have hlen : c1content.length ≤ k := by
      have h111 : c1content.length = 111 := rfl
      omega
    rw [List.take_of_length_le hlen, List.drop_eq_nil_of_le hlen]
    rfl

/-- C2: the code violates the claim.  When the [DONE] sentinel arrives in one
read and a further token frame arrives in a later read, the decoder emits a
token event after the terminal event: the break in the source exits only the
inner per-read line loop, so the while loop keeps processing subsequent reads
instead of stopping at the sentinel. -/
theorem c2_token_after_terminal :
    decodeStream [lit "data: [DONE]\n\n",
      lit "data: \x7b\"choices\":[\x7b\"delta\":\x7b\"content\":\"x\"\x7d\x7d]\x7d\n\n"] =
      [Event.done, Event.token (JVal.str (lit "x"))] := rfl

/-- C3: for every context array of knowledge items as the inbound interface
types them (string title and body), both assemblers render exactly the first
five items, with each rendered body the plain first-2800-character cut of the
item body and nothing appended; the cut is a prefix of the original body. -/
theorem c3_prompt_truncation (ctx : List KnowledgeItem) :
    buildSystemPrompt000 (JVal.arr (ctx.map encodeItem)) =
      Except.ok (promptFrom header000 (blockTexts000 0 (ctx.take 5))) ∧
    buildSystemPromptChat (JVal.arr (ctx.map encodeItem)) =
      Except.ok (promptFrom headerChat ((ctx.take 5).map blockTextChat)) ∧
    (ctx.take 5).length ≤ 5 ∧
    (∀ it ∈ ctx.take 5, (it.body.take 2800).length ≤ 2800 ∧
      it.body.take 2800 ++ it.body.drop 2800 = it.body) := by
  refine ⟨?_, ?_, List.length_take_le 5 ctx, ?_⟩
  · simp only [buildSystemPrompt000, blocks000_typed]
    rfl
  · simp only [buildSystemPromptChat, blocksChat_typed]
    rfl
  · intro it _
    exact ⟨List.length_take_le 2800 _, List.take_append_drop 2800 it.body⟩

/-- C4: for every history array on which the assembler returns, the result
uses only the last ten entries, keeps exactly the entries whose role is the
string user or assistant, and truncates each kept content to at most 2000
characters. -/
theorem c4_history_window (sp q : Str) (h : List JVal) (ms : List Message)
    (hm : buildMessages sp q h = Except.ok ms) :
    buildMessages sp q h = buildMessages sp q (lastTen h) ∧
    ms = ⟨lit "system", sp⟩ :: (lastTen h).filterMap keepFn ++
      [⟨lit "user", q⟩] ∧
    (∀ msg ∈ (lastTen h).filterMap keepFn,
      (msg.role = lit "user" ∨ msg.role = lit "assistant") ∧
      msg.content.length ≤ 2000) ∧
    ((lastTen h).filterMap keepFn).length ≤ 10 := by
  refine ⟨?_, buildMessages_shape sp q h ms hm, ?_, ?_⟩
  · simp only [buildMessages, lastTen_idem]
  · intro msg hmem
    obtain ⟨m, _, hk⟩ := List.mem_filterMap.mp hmem
    exact keepFn_shape m msg hk
  · exact le_trans (List.length_filterMap_le _ _) (lastTen_length_le h)

/-- C4 witness: a concrete history with one kept and one dropped entry. -/
theorem c4_history_window_witness :
    buildMessages (lit "S") (lit "Q") exHistory = Except.ok exMessages ∧
    (buildMessages (lit "S") (lit "Q") exHistory =
      buildMessages (lit "S") (lit "Q") (lastTen exHistory) ∧
    exMessages = ⟨lit "system", lit "S"⟩ ::
      (lastTen exHistory).filterMap keepFn ++ [⟨lit "user", lit "Q"⟩] ∧
    (∀ msg ∈ (lastTen exHistory).filterMap keepFn,
      (msg.role = lit "user" ∨ msg.role = lit "assistant") ∧
      msg.content.length ≤ 2000) ∧
    ((lastTen exHistory).filterMap keepFn).length ≤ 10) :=
  ⟨rfl, c4_history_window (lit "S") (lit "Q") exHistory exMessages rfl⟩

/-- C5: for every input on which the assembler returns, the message list is
exactly one system message first, the kept history turns in their original
relative order (a filterMap, hence never reordered or deduplicated), and the
literal question text as the final user message. -/
theorem c5_message_shape (sp q : Str) (h : List JVal) (ms : List Message)
    (hm : buildMessages sp q h = Except.ok ms) :
    ms = ⟨lit "system", sp⟩ :: (lastTen h).filterMap keepFn ++
      [⟨lit "user", q⟩] ∧
    ms.head? = some ⟨lit "system", sp⟩ ∧
    ms.getLast? = some ⟨lit "user", q⟩ ∧
    ms.countP (fun m => m.role == lit "system") = 1 := by
  have hshape := buildMessages_shape sp q h ms hm
  subst hshape
  refine ⟨rfl, rfl, ?_, ?_⟩
  · show ((⟨lit "system", sp⟩ :: (lastTen h).filterMap keepFn) ++
      [⟨lit "user", q⟩] : List Message).getLast? = _
    rw [List.getLast?_concat]
  · have h1 : ((lastTen h).filterMap keepFn).countP
        (fun m => m.role == lit "system") = 0 := by
      rw [List.countP_eq_zero]
      intro msg hmem
      obtain ⟨m, _, hk⟩ := List.mem_filterMap.mp hmem
      rcases (keepFn_shape m msg hk).1 with hr | hr <;> simp [hr, lit]
    simp only [List.countP_cons, List.countP_append, List.countP_nil, h1]
    rfl

/-- C5 witness: a concrete history whose kept turns keep their order around
a dropped malformed entry. -/
theorem c5_message_shape_witness :
    buildMessages (lit "S") (lit "Q") exHistory2 = Except.ok exMessages2 ∧
    (exMessages2 = ⟨lit "system", lit "S"⟩ ::
      (lastTen exHistory2).filterMap keepFn ++ [⟨lit "user", lit "Q"⟩] ∧
    exMessages2.head? = some ⟨lit "system", lit "S"⟩ ∧
    exMessages2.getLast? = some ⟨lit "user", lit "Q"⟩ ∧
    exMessages2.countP (fun m => m.role == lit "system") = 1) :=
  ⟨rfl, c5_message_shape (lit "S") (lit "Q") exHistory2 exMessages2 rfl⟩

/-- C6: a complete data line whose payload is not valid JSON (and is not the
sentinel, which the decoder tests first) is skipped silently: it emits no
event, does not stop line processing, and the events of the surrounding lines
are exactly those produced without it. -/
theorem c6_invalid_frame_skipped (pre post : List Str) (bad : Str)
    (h1 : (lit "data: ").isPrefixOf bad = true)
    (h2 : ¬ jsTrim (bad.drop 6) = lit "[DONE]")
    (h3 : jsonParse (jsTrim (bad.drop 6)) = none) :
    processBatch (pre ++ bad :: post) = processBatch (pre ++ post) := by
  induction pre with
  | nil =>
    simp only [List.nil_append, processBatch, h1, if_true]
    rw [if_neg h2, h3]
  | cons a rest ih =>
    simp only [List.cons_append, processBatch, List.append_eq]
    rw [ih]

/-- C6 witness: a malformed frame line between no lines and one valid token
frame line changes nothing. -/
theorem c6_invalid_frame_skipped_witness :
    (lit "data: ").isPrefixOf exBadLine = true ∧
    ¬ jsTrim (exBadLine.drop 6) = lit "[DONE]" ∧
    jsonParse (jsTrim (exBadLine.drop 6)) = none ∧
    processBatch ([] ++ exBadLine :: [exGoodLine]) =
      processBatch ([] ++ [exGoodLine]) :=
  ⟨by decide, by decide, rfl,
    c6_invalid_frame_skipped [] [exGoodLine] exBadLine (by decide) (by decide) rfl⟩

/-- C7 counterexample: the claim that the assembler never throws is false.
A context entry whose body is the number 1 (truthy, but without a slice
method) raises a TypeError in both variants, and a truthy non-array context
is not normalized either. -/
theorem c7_assembler_can_throw :
    buildSystemPrompt000 (JVal.arr [JVal.obj [(lit "body", JVal.num 1 0)]]) =
      Except.error () ∧
    buildSystemPromptChat (JVal.arr [JVal.obj [(lit "body", JVal.num 1 0)]]) =
      Except.error () ∧
    buildSystemPrompt000 (JVal.num 5 0) = Except.error () ∧
    buildSystemPromptChat (JVal.num 5 0) = Except.error () :=
  ⟨rfl, rfl, rfl, rfl⟩

/-- C7 amended: the assembler is pure, and it never throws on a falsy context
or on a context array whose entries are objects with string-or-falsy title
and body fields (falsy malformed values are normalized to safe empty values);
outside that domain a TypeError is possible, as the counterexample shows. -/
theorem c7_total_on_benign (ctx : JVal) (hb : ctxBenign ctx = true) :
    (∃ p, buildSystemPrompt000 ctx = Except.ok p) ∧
    (∃ p, buildSystemPromptChat ctx = Except.ok p) :=
  ⟨buildSystemPrompt000_benign ctx hb, buildSystemPromptChat_benign ctx hb⟩

/-- C7 witness: a context with a string title and a null body is benign and
renders in both variants. -/
theorem c7_total_on_benign_witness :
    ctxBenign exBenignCtx = true ∧
    ((∃ p, buildSystemPrompt000 exBenignCtx = Except.ok p) ∧
     (∃ p, buildSystemPromptChat exBenignCtx = Except.ok p)) :=
  ⟨rfl, c7_total_on_benign exBenignCtx rfl⟩

/-- C8: whenever the API key is not configured, a POST to either handler
returns the fixed not-configured reply with status 200 and makes zero
outbound calls. -/
theorem c8_unconfigured_fixed_reply (k : Option Str)
    (hk : keyTruthy k = false) (rb : ReqBody) (pb : ProvB) (ps : ProvS) :
    handlerChat (lit "POST") k rb pb =
      Except.ok ⟨200, .reply notConfiguredReply, 0⟩ ∧
    handlerStream (lit "POST") k rb ps =
      Except.ok ⟨200, .reply notConfiguredReply, 0⟩ :=
  ⟨handlerChat_unconfigured k hk rb pb, handlerStream_unconfigured k hk rb ps⟩

/-- C8 witness: with the key absent, both handlers short-circuit on an
arbitrary body. -/
theorem c8_unconfigured_fixed_reply_witness :
    keyTruthy none = false ∧
    (handlerChat (lit "POST") none (ReqBody.val JVal.undefined) ProvB.netErr =
      Except.ok ⟨200, .reply notConfiguredReply, 0⟩ ∧
    handlerStream (lit "POST") none (ReqBody.val JVal.undefined) ProvS.netErr =
      Except.ok ⟨200, .reply notConfiguredReply, 0⟩) :=
  ⟨rfl, c8_unconfigured_fixed_reply none rfl (ReqBody.val JVal.undefined)
    ProvB.netErr ProvS.netErr⟩

/-- C9: with a configured key, a POST whose body parses to a value whose
question field is missing, not a string, empty, or whitespace-only (exactly
the cases the code maps to the empty trimmed question) gets the 400 Missing
question error from both handlers, with no provider call. -/
theorem c9_missing_question (k : Option Str) (hk : keyTruthy k = true)
    (rb : ReqBody) (b : JVal) (hb : bodyOf rb = Except.ok b)
    (hq : questionOf b = Except.ok []) (pb : ProvB) (ps : ProvS) :
    handlerChat (lit "POST") k rb pb =
      Except.ok ⟨400, .errorMsg (lit "Missing question"), 0⟩ ∧
    handlerStream (lit "POST") k rb ps =
      Except.ok ⟨400, .errorMsg (lit "Missing question"), 0⟩ := by
  have hno : ¬ (lit "POST" = lit "OPTIONS") := by decide
  have hpost : ¬ ¬ (lit "POST" = lit "POST") := by decide
  have hkc : ¬ ¬ keyTruthy k = true := by simp [hk]
  constructor
  · unfold handlerChat
    rw [if_neg hno, if_neg hpost, if_neg hkc, hb]
    dsimp only
    rw [hq]
    rfl
  · unfold handlerStream
    rw [if_neg hno, if_neg hpost, if_neg hkc, hb]
    dsimp only
    rw [hq]
    rfl

/-- C9 witness: a whitespace-only question string is rejected by both
handlers without a provider call. -/
theorem c9_missing_question_witness :
    keyTruthy (some (lit "k")) = true ∧
    bodyOf (ReqBody.strB (lit "\x7b\"question\":\"  \"\x7d")) =
      Except.ok (JVal.obj [(lit "question", JVal.str (lit "  "))]) ∧
    questionOf (JVal.obj [(lit "question", JVal.str (lit "  "))]) =
      Except.ok [] ∧
    (handlerChat (lit "POST") (some (lit "k"))
      (ReqBody.strB (lit "\x7b\"question\":\"  \"\x7d")) ProvB.netErr =
      Except.ok ⟨400, .errorMsg (lit "Missing question"), 0⟩ ∧
    handlerStream (lit "POST") (some (lit "k"))
      (ReqBody.strB (lit "\x7b\"question\":\"  \"\x7d")) ProvS.netErr =
      Except.ok ⟨400, .errorMsg (lit "Missing question"), 0⟩) :=
  ⟨rfl, rfl, rfl,
    c9_missing_question (some (lit "k")) rfl
      (ReqBody.strB (lit "\x7b\"question\":\"  \"\x7d"))
      (JVal.obj [(lit "question", JVal.str (lit "  "))]) rfl rfl
      ProvB.netErr ProvS.netErr⟩

/-- C10: the credential check runs before body parsing and question
validation: with an unconfigured key both handlers answer 200 with the
not-configured reply for every body, including a raw string body that is not
valid JSON, and neither the Invalid JSON nor the Missing question 400 error
is ever produced in that configuration. -/
theorem c10_credential_check_first (k : Option Str)
    (hk : keyTruthy k = false) (rb : ReqBody) (s : Str)
    (pb : ProvB) (ps : ProvS) :
    handlerChat (lit "POST") k rb pb =
      Except.ok ⟨200, .reply notConfiguredReply, 0⟩ ∧
    handlerStream (lit "POST") k rb ps =
      Except.ok ⟨200, .reply notConfiguredReply, 0⟩ ∧
    handlerChat (lit "POST") k (ReqBody.strB s) pb =
      Except.ok ⟨200, .reply notConfiguredReply, 0⟩ ∧
    handlerStream (lit "POST") k (ReqBody.strB s) ps =
      Except.ok ⟨200, .reply notConfiguredReply, 0⟩ ∧
    ¬ (handlerChat (lit "POST") k rb pb).map HOut.status = Except.ok 400 ∧
    ¬ (handlerStream (lit "POST") k rb ps).map HOut.status = Except.ok 400 := by
  have h1 := handlerChat_unconfigured k hk rb pb
  have h2 := handlerStream_unconfigured k hk rb ps
  refine ⟨h1, h2, handlerChat_unconfigured k hk _ pb,
    handlerStream_unconfigured k hk _ ps, ?_, ?_⟩
  · rw [h1]
    intro hcon
    exact absurd (Except.ok.inj hcon) (by decide)
  · rw [h2]
    intro hcon
    exact absurd (Except.ok.inj hcon) (by decide)

/-- C10 witness: with the key absent, even a malformed raw JSON body gets the
not-configured reply and never a 400. -/
theorem c10_credential_check_first_witness :
    keyTruthy (some []) = false ∧
    (handlerChat (lit "POST") (some []) (ReqBody.strB (lit "not json"))
        ProvB.netErr = Except.ok ⟨200, .reply notConfiguredReply, 0⟩ ∧
    handlerStream (lit "POST") (some []) (ReqBody.strB (lit "not json"))
        ProvS.netErr = Except.ok ⟨200, .reply notConfiguredReply, 0⟩ ∧
    handlerChat (lit "POST") (some []) (ReqBody.strB (lit "not json"))
        ProvB.netErr = Except.ok ⟨200, .reply notConfiguredReply, 0⟩ ∧
    handlerStream (lit "POST") (some []) (ReqBody.strB (lit "not json"))
        ProvS.netErr = Except.ok ⟨200, .reply notConfiguredReply, 0⟩ ∧
    ¬ (handlerChat (lit "POST") (some []) (ReqBody.strB (lit "not json"))
        ProvB.netErr).map HOut.status = Except.ok 400 ∧
    ¬ (handlerStream (lit "POST") (some []) (ReqBody.strB (lit "not json"))
        ProvS.netErr).map HOut.status = Except.ok 400) :=
  ⟨rfl, c10_credential_check_first (some []) rfl
    (ReqBody.strB (lit "not json")) (lit "not json") ProvB.netErr ProvS.netErr⟩

end Metris
